import Mathlib

/-!
Verification of the graphql-parser core against its specification.

The development shallowly embeds the Rust sources:
  * `src/helpers.rs`   — token-matching parser combinators (`TokenMatch`,
    `NameMatch`, `StringMatch`, `Value` and their constructors);
  * `src/schema/ast.rs` — the schema AST, its `new` constructors,
    `Document::into_static`, and `DirectiveLocation` with `as_str`,
    `from_str`, `is_query`, `is_schema`.

Rust `&str` token values are modelled as `List Char` (all delimiter
characters involved are ASCII, so byte indices and character indices
coincide on the slices taken here).  Fallible operations return `Option`
or `Except`.  Types that live in source files not present in the kit
(`Pos` from position.rs, `Kind`/`Token` from tokenizer.rs, `Value`,
`Type`, `Directive` from common.rs) are modelled from the specification
and marked as such in their doc comments.
-/

namespace GraphqlParser

/-- Modelled from the spec: `Pos { line, column }` (position.rs is not in
the kit).  `Pos::default()` is Rust's derived `Default`, which zeroes both
`usize` fields. -/
structure Pos where
  line : Nat
  column : Nat
deriving DecidableEq, Repr

/-- Rust derived `Default::default()` for `Pos`: both fields zero. -/
def Pos.default : Pos := ⟨0, 0⟩

/-- Modelled from the spec: the token kinds of §4.1 (tokenizer.rs is not
in the kit): `Punctuator, Name, IntValue, FloatValue, StringValue,
BlockString, Description`. -/
inductive Kind where
  | Punctuator
  | Name
  | IntValue
  | FloatValue
  | StringValue
  | BlockString
  | Description
deriving DecidableEq, Repr

/-- Modelled from the spec: "The token carries a `&str` slice of the
source plus a `Kind` discriminator and a start `Pos`" (§4.1; tokenizer.rs
is not in the kit).  The value slice is modelled as `List Char`. -/
structure Token where
  kind : Kind
  value : List Char
  pos : Pos
deriving DecidableEq, Repr

/-- `DirectiveLocation` from src/schema/ast.rs, all variants in source
order; the comments reproduce the source's grouping. -/
inductive DirectiveLocation where
  -- executable
  | Query
  | Mutation
  | Subscription
  | Field
  | FragmentDefinition
  | FragmentSpread
  | InlineFragment
  -- type_system
  | Schema
  | Scalar
  | Object
  | FieldDefinition
  | ArgumentDefinition
  | Interface
  | Union
  | Enum
  | EnumValue
  | InputObject
  | InputFieldDefinition
  | VariableDefinition
deriving DecidableEq, Repr, Fintype

/-- `DirectiveLocation::as_str` from src/schema/ast.rs. -/
def DirectiveLocation.as_str : DirectiveLocation → String
  | .Query => "QUERY"
  | .Mutation => "MUTATION"
  | .Subscription => "SUBSCRIPTION"
  | .Field => "FIELD"
  | .FragmentDefinition => "FRAGMENT_DEFINITION"
  | .FragmentSpread => "FRAGMENT_SPREAD"
  | .InlineFragment => "INLINE_FRAGMENT"
  | .Schema => "SCHEMA"
  | .Scalar => "SCALAR"
  | .Object => "OBJECT"
  | .FieldDefinition => "FIELD_DEFINITION"
  | .ArgumentDefinition => "ARGUMENT_DEFINITION"
  | .Interface => "INTERFACE"
  | .Union => "UNION"
  | .Enum => "ENUM"
  | .EnumValue => "ENUM_VALUE"
  | .InputObject => "INPUT_OBJECT"
  | .InputFieldDefinition => "INPUT_FIELD_DEFINITION"
  | .VariableDefinition => "VARIABLE_DEFINITION"

/-- `DirectiveLocation::is_query` from src/schema/ast.rs: the first arm
lists the seven variants commented `executable`, the second arm the
twelve variants commented `type_system`. -/
def DirectiveLocation.is_query : DirectiveLocation → Bool
  | .Query | .Mutation | .Subscription | .Field | .FragmentDefinition
  | .FragmentSpread | .InlineFragment => true
  | .Schema | .Scalar | .Object | .FieldDefinition | .ArgumentDefinition
  | .Interface | .Union | .Enum | .EnumValue | .InputObject
  | .InputFieldDefinition | .VariableDefinition => false

/-- `DirectiveLocation::is_schema` from src/schema/ast.rs: `!self.is_query()`. -/
def DirectiveLocation.is_schema (l : DirectiveLocation) : Bool :=
  ! l.is_query

/-- The unit error type `InvalidDirectiveLocation` from src/schema/ast.rs. -/
inductive InvalidDirectiveLocation where
  | mk
deriving DecidableEq, Repr

/-- `<DirectiveLocation as FromStr>::from_str` from src/schema/ast.rs: a
sequential match on the string against the nineteen names, defaulting to
`Err(InvalidDirectiveLocation)`. -/
def DirectiveLocation.from_str (s : String) :
    Except InvalidDirectiveLocation DirectiveLocation :=
  if s = "QUERY" then .ok .Query
  else if s = "MUTATION" then .ok .Mutation
  else if s = "SUBSCRIPTION" then .ok .Subscription
  else if s = "FIELD" then .ok .Field
  else if s = "FRAGMENT_DEFINITION" then .ok .FragmentDefinition
  else if s = "FRAGMENT_SPREAD" then .ok .FragmentSpread
  else if s = "INLINE_FRAGMENT" then .ok .InlineFragment
  else if s = "SCHEMA" then .ok .Schema
  else if s = "SCALAR" then .ok .Scalar
  else if s = "OBJECT" then .ok .Object
  else if s = "FIELD_DEFINITION" then .ok .FieldDefinition
  else if s = "ARGUMENT_DEFINITION" then .ok .ArgumentDefinition
  else if s = "INTERFACE" then .ok .Interface
  else if s = "UNION" then .ok .Union
  else if s = "ENUM" then .ok .Enum
  else if s = "ENUM_VALUE" then .ok .EnumValue
  else if s = "INPUT_OBJECT" then .ok .InputObject
  else if s = "INPUT_FIELD_DEFINITION" then .ok .InputFieldDefinition
  else if s = "VARIABLE_DEFINITION" then .ok .VariableDefinition
  else .error .mk

/-- Rust inclusive byte-range slicing `&s[lo..=hi]` on a character list:
the characters at indices `lo` through `hi` inclusive. -/
def sliceIncl (s : List Char) (lo hi : Nat) : List Char :=
  (s.drop lo).take (hi + 1 - lo)

namespace Helpers

/-- `TokenMatch` from src/helpers.rs (the phantom lifetime is erased). -/
structure TokenMatch where
  kind : Kind
deriving DecidableEq, Repr

/-- `NameMatch` from src/helpers.rs: only a phantom field, erased here. -/
structure NameMatch where
deriving DecidableEq, Repr

/-- `StringMatch` from src/helpers.rs. -/
structure StringMatch where
  block : Bool
deriving DecidableEq, Repr

/-- `Value` from src/helpers.rs (the `&'static str` expected value is a
character list here). -/
structure Value where
  kind : Kind
  value : List Char
deriving DecidableEq, Repr

/-- `kind` from src/helpers.rs. -/
def kind (k : Kind) : TokenMatch :=
  ⟨k⟩

/-- `name` from src/helpers.rs. -/
def name : NameMatch :=
  ⟨⟩

/-- `_string` from src/helpers.rs: a `StringMatch` with `block = false`. -/
def _string : StringMatch :=
  ⟨false⟩

/-- `_blockstring` from src/helpers.rs: a `StringMatch` with `block = true`. -/
def _blockstring : StringMatch :=
  ⟨true⟩

/-- `punct` from src/helpers.rs. -/
def punct (value : List Char) : Value :=
  ⟨Kind.Punctuator, value⟩

/-- `ident` from src/helpers.rs. -/
def ident (value : List Char) : Value :=
  ⟨Kind.Name, value⟩

/-- combine's `satisfy` on a token stream, as used by every parser in
src/helpers.rs: consume the next token when the predicate accepts it,
fail otherwise (also on end of input). -/
def satisfy (p : Token → Bool) : List Token → Option (Token × List Token)
  | [] => none
  | t :: ts => if p t then some (t, ts) else none

/-- `Parser::parse_lazy` of `TokenMatch` from src/helpers.rs:
`satisfy(|c| c.kind == self.kind)`. -/
def TokenMatch.parse (m : TokenMatch) (input : List Token) :
    Option (Token × List Token) :=
  satisfy (fun c => decide (c.kind = m.kind)) input

/-- `Parser::parse_lazy` of `Value` from src/helpers.rs:
`satisfy(|c| c.kind == self.kind && c.value == self.value)`. -/
def Value.parse (m : Value) (input : List Token) :
    Option (Token × List Token) :=
  satisfy (fun c => decide (c.kind = m.kind) && decide (c.value = m.value))
    input

/-- `Parser::parse_lazy` of `NameMatch` from src/helpers.rs:
`satisfy(|c| c.kind == Kind::Name).map(|t| S::from(t.value))`; for the
owned instantiation `S::from` is the plain copy of the slice, modelled
as the identity. -/
def NameMatch.parse (_m : NameMatch) (input : List Token) :
    Option (List Char × List Token) :=
  (satisfy (fun c => decide (c.kind = Kind.Name)) input).map
    fun r => (r.1.value, r.2)

/-- `Parser::parse_lazy` of `StringMatch` from src/helpers.rs: satisfy on
the kind (`BlockString` when `block`, else `StringValue`), then map the
token to `S::from(&t.value[3..=t.value.len() - 3])` in block mode and
`S::from(&t.value[1..=t.value.len() - 1])` otherwise. -/
def StringMatch.parse (m : StringMatch) (input : List Token) :
    Option (List Char × List Token) :=
  (satisfy
      (fun c =>
        if m.block then decide (c.kind = Kind.BlockString)
        else decide (c.kind = Kind.StringValue))
      input).map
    fun r =>
      (if m.block then sliceIncl r.1.value 3 (r.1.value.length - 3)
       else sliceIncl r.1.value 1 (r.1.value.length - 1),
       r.2)

end Helpers

/-- Hexadecimal digit value of a character, for the `\uXXXX` escape of
the spec's string grammar. -/
def hexDigit (c : Char) : Option Nat :=
  if '0' ≤ c ∧ c ≤ '9' then some (c.toNat - '0'.toNat)
  else if 'a' ≤ c ∧ c ≤ 'f' then some (c.toNat - 'a'.toNat + 10)
  else if 'A' ≤ c ∧ c ≤ 'F' then some (c.toNat - 'A'.toNat + 10)
  else none

/-- Modelled from the spec: the recognized escapes of §4.1/§4.3 —
`\" \\ \/ \b \f \n \r \t` and `\uXXXX` (four hex digits) — processed
into the characters they denote.  Any other `\?` is a lex error per the
spec, so such inputs never reach this rule; they are passed through
verbatim here. -/
def processEscapes : List Char → List Char
  | [] => []
  | '\\' :: rest =>
    match rest with
    | '"' :: r => '"' :: processEscapes r
    | '\\' :: r => '\\' :: processEscapes r
    | '/' :: r => '/' :: processEscapes r
    | 'b' :: r => Char.ofNat 8 :: processEscapes r
    | 'f' :: r => Char.ofNat 12 :: processEscapes r
    | 'n' :: r => '\n' :: processEscapes r
    | 'r' :: r => Char.ofNat 13 :: processEscapes r
    | 't' :: r => '\t' :: processEscapes r
    | 'u' :: a :: b :: c :: d :: r =>
      match hexDigit a, hexDigit b, hexDigit c, hexDigit d with
      | some ha, some hb, some hc, some hd =>
        Char.ofNat (((ha * 16 + hb) * 16 + hc) * 16 + hd) :: processEscapes r
      | _, _, _, _ => '\\' :: 'u' :: a :: b :: c :: d :: processEscapes r
    | r => '\\' :: processEscapes r
  | c :: rest => c :: processEscapes rest

/-- Modelled from the spec (§4.3): the value of a `StringValue` token —
"strip the outer `\"`, then process escapes into a fresh owned string". -/
def spec_string_contents (v : List Char) : List Char :=
  processEscapes ((v.drop 1).dropLast)

/-- A line is blank when it consists of whitespace only. -/
def isBlank (l : List Char) : Bool :=
  l.all fun ch => ch == ' ' || ch == '\t'

/-- Length of a line's leading-whitespace prefix. -/
def indentOf (l : List Char) : Nat :=
  (l.takeWhile fun ch => ch == ' ' || ch == '\t').length

/-- Unify line terminators to `\n`: `\r\n` and a lone `\r` both become
`\n` (spec §4.3). -/
def unifyTerminators : List Char → List Char
  | [] => []
  | '\r' :: '\n' :: rest => '\n' :: unifyTerminators rest
  | '\r' :: rest => '\n' :: unifyTerminators rest
  | c :: rest => c :: unifyTerminators rest

/-- Replace the escaped delimiter `\"""` by `"""` (spec §4.3). -/
def replaceEscapedTriple : List Char → List Char
  | '\\' :: '"' :: '"' :: '"' :: rest =>
    '"' :: '"' :: '"' :: replaceEscapedTriple rest
  | c :: rest => c :: replaceEscapedTriple rest
  | [] => []

/-- Split on `\n` (to be applied after terminator unification). -/
def splitLines : List Char → List (List Char)
  | [] => [[]]
  | '\n' :: rest => [] :: splitLines rest
  | c :: rest =>
    match splitLines rest with
    | [] => [[c]]
    | l :: ls => (c :: l) :: ls

/-- The uniform indent removed from all lines after the first: the least
leading-whitespace length among the non-blank lines after the first
(0 when there are none). -/
def commonIndent (rest : List (List Char)) : Nat :=
  match (rest.filter fun l => ! isBlank l).map indentOf with
  | [] => 0
  | x :: xs => xs.foldl Nat.min x

/-- Drop leading and trailing blank lines (spec §4.3). -/
def dropBlankLines (ls : List (List Char)) : List (List Char) :=
  ((ls.dropWhile isBlank).reverse.dropWhile isBlank).reverse

/-- Modelled from the spec (§4.3): the value of a `BlockString` token —
"strip the outer `\"\"\"`, then apply GraphQL block-string
normalization — remove a uniform leading-whitespace prefix from all
lines after the first, drop leading and trailing blank lines, unify
line terminators to `\n`, and replace `\\\"\"\"` by `\"\"\"`". -/
def spec_block_contents (v : List Char) : List Char :=
  let raw := ((v.drop 3).dropLast.dropLast).dropLast
  let unescaped := replaceEscapedTriple raw
  let lines := splitLines (unifyTerminators unescaped)
  let dedented :=
    match lines with
    | [] => []
    | first :: rest => first :: rest.map fun l => l.drop (commonIndent rest)
  List.intercalate ['\n'] (dropBlankLines dedented)

/-- Modelled from the spec (§3; common.rs is not in the kit): the value
grammar `Value ∈ { Variable, Int(i64), Float(f64), String, Boolean,
Null, Enum, List, Object(ordered pairs) }`. -/
inductive Value (T : Type) where
  | Variable (name : T)
  | Int (v : Int)
  | Float (v : Float)
  | String (v : String)
  | Boolean (v : Bool)
  | Null
  | Enum (v : T)
  | List (items : List (Value T))
  | Object (fields : List (T × Value T))

/-- Modelled from the spec (§3; common.rs is not in the kit): `Type ∈
{ NamedType, ListType, NonNullType }` (named `Type'` because `Type` is a
sort in Lean). -/
inductive Type' (T : Type) where
  | NamedType (name : T)
  | ListType (ty : Type' T)
  | NonNullType (ty : Type' T)

/-- Modelled from the spec (§3; common.rs is not in the kit):
`Directive := { position, name, arguments: [(T, Value)] }`. -/
structure Directive (T : Type) where
  position : Pos
  name : T
  arguments : List (T × Value T)

/-- `SchemaDefinition` from src/schema/ast.rs. -/
structure SchemaDefinition (T : Type) where
  position : Pos
  directives : List (Directive T)
  query : Option T
  mutation : Option T
  subscription : Option T

/-- `SchemaExtension` from src/schema/ast.rs. -/
structure SchemaExtension (T : Type) where
  position : Pos
  directives : List (Directive T)
  query : Option T
  mutation : Option T
  subscription : Option T

/-- `ScalarType` from src/schema/ast.rs. -/
structure ScalarType (T : Type) where
  position : Pos
  description : Option String
  name : T
  directives : List (Directive T)

/-- `ScalarType::new` from src/schema/ast.rs. -/
def ScalarType.new {T : Type} (name : T) : ScalarType T :=
  ⟨Pos.default, none, name, []⟩

/-- `ScalarTypeExtension` from src/schema/ast.rs. -/
structure ScalarTypeExtension (T : Type) where
  position : Pos
  name : T
  directives : List (Directive T)

/-- `ScalarTypeExtension::new` from src/schema/ast.rs. -/
def ScalarTypeExtension.new {T : Type} (name : T) : ScalarTypeExtension T :=
  ⟨Pos.default, name, []⟩

/-- `InputValue` from src/schema/ast.rs. -/
structure InputValue (T : Type) where
  position : Pos
  description : Option String
  name : T
  value_type : Type' T
  default_value : Option (Value T)
  directives : List (Directive T)

/-- `Field` from src/schema/ast.rs. -/
structure Field (T : Type) where
  position : Pos
  description : Option String
  name : T
  arguments : List (InputValue T)
  field_type : Type' T
  directives : List (Directive T)

/-- `ObjectType` from src/schema/ast.rs. -/
structure ObjectType (T : Type) where
  position : Pos
  description : Option String
  name : T
  implements_interfaces : List T
  directives : List (Directive T)
  fields : List (Field T)

/-- `ObjectType::new` from src/schema/ast.rs. -/
def ObjectType.new {T : Type} (name : T) : ObjectType T :=
  ⟨Pos.default, none, name, [], [], []⟩

/-- `ObjectTypeExtension` from src/schema/ast.rs. -/
structure ObjectTypeExtension (T : Type) where
  position : Pos
  name : T
  implements_interfaces : List T
  directives : List (Directive T)
  fields : List (Field T)

/-- `ObjectTypeExtension::new` from src/schema/ast.rs. -/
def ObjectTypeExtension.new {T : Type} (name : T) : ObjectTypeExtension T :=
  ⟨Pos.default, name, [], [], []⟩

/-- `InterfaceType` from src/schema/ast.rs. -/
structure InterfaceType (T : Type) where
  position : Pos
  description : Option String
  name : T
  implements_interfaces : List T
  directives : List (Directive T)
  fields : List (Field T)

/-- `InterfaceType::new` from src/schema/ast.rs. -/
def InterfaceType.new {T : Type} (name : T) : InterfaceType T :=
  ⟨Pos.default, none, name, [], [], []⟩

/-- `InterfaceTypeExtension` from src/schema/ast.rs. -/
structure InterfaceTypeExtension (T : Type) where
  position : Pos
  name : T
  implements_interfaces : List T
  directives : List (Directive T)
  fields : List (Field T)

/-- `InterfaceTypeExtension::new` from src/schema/ast.rs. -/
def InterfaceTypeExtension.new {T : Type} (name : T) :
    InterfaceTypeExtension T :=
  ⟨Pos.default, name, [], [], []⟩

/-- `UnionType` from src/schema/ast.rs. -/
structure UnionType (T : Type) where
  position : Pos
  description : Option String
  name : T
  directives : List (Directive T)
  types : List T

/-- `UnionType::new` from src/schema/ast.rs. -/
def UnionType.new {T : Type} (name : T) : UnionType T :=
  ⟨Pos.default, none, name, [], []⟩

/-- `UnionTypeExtension` from src/schema/ast.rs. -/
structure UnionTypeExtension (T : Type) where
  position : Pos
  name : T
  directives : List (Directive T)
  types : List T

/-- `UnionTypeExtension::new` from src/schema/ast.rs. -/
def UnionTypeExtension.new {T : Type} (name : T) : UnionTypeExtension T :=
  ⟨Pos.default, name, [], []⟩

/-- `EnumValue` from src/schema/ast.rs. -/
structure EnumValue (T : Type) where
  position : Pos
  description : Option String
  name : T
  directives : List (Directive T)

/-- `EnumValue::new` from src/schema/ast.rs. -/
def EnumValue.new {T : Type} (name : T) : EnumValue T :=
  ⟨Pos.default, none, name, []⟩

/-- `EnumType` from src/schema/ast.rs. -/
structure EnumType (T : Type) where
  position : Pos
  description : Option String
  name : T
  directives : List (Directive T)
  values : List (EnumValue T)

/-- `EnumType::new` from src/schema/ast.rs. -/
def EnumType.new {T : Type} (name : T) : EnumType T :=
  ⟨Pos.default, none, name, [], []⟩

/-- `EnumTypeExtension` from src/schema/ast.rs. -/
structure EnumTypeExtension (T : Type) where
  position : Pos
  name : T
  directives : List (Directive T)
  values : List (EnumValue T)

/-- `EnumTypeExtension::new` from src/schema/ast.rs. -/
def EnumTypeExtension.new {T : Type} (name : T) : EnumTypeExtension T :=
  ⟨Pos.default, name, [], []⟩

/-- `InputObjectType` from src/schema/ast.rs. -/
structure InputObjectType (T : Type) where
  position : Pos
  description : Option String
  name : T
  directives : List (Directive T)
  fields : List (InputValue T)

/-- `InputObjectType::new` from src/schema/ast.rs. -/
def InputObjectType.new {T : Type} (name : T) : InputObjectType T :=
  ⟨Pos.default, none, name, [], []⟩

/-- `InputObjectTypeExtension` from src/schema/ast.rs. -/
structure InputObjectTypeExtension (T : Type) where
  position : Pos
  name : T
  directives : List (Directive T)
  fields : List (InputValue T)

/-- `InputObjectTypeExtension::new` from src/schema/ast.rs. -/
def InputObjectTypeExtension.new {T : Type} (name : T) :
    InputObjectTypeExtension T :=
  ⟨Pos.default, name, [], []⟩

/-- `DirectiveDefinition` from src/schema/ast.rs. -/
structure DirectiveDefinition (T : Type) where
  position : Pos
  description : Option String
  name : T
  arguments : List (InputValue T)
  repeatable : Bool
  locations : List DirectiveLocation

/-- `DirectiveDefinition::new` from src/schema/ast.rs. -/
def DirectiveDefinition.new {T : Type} (name : T) : DirectiveDefinition T :=
  ⟨Pos.default, none, name, [], false, []⟩

/-- `TypeDefinition` from src/schema/ast.rs. -/
inductive TypeDefinition (T : Type) where
  | Scalar (d : ScalarType T)
  | Object (d : ObjectType T)
  | Interface (d : InterfaceType T)
  | Union (d : UnionType T)
  | Enum (d : EnumType T)
  | InputObject (d : InputObjectType T)

/-- `TypeExtension` from src/schema/ast.rs. -/
inductive TypeExtension (T : Type) where
  | Scalar (d : ScalarTypeExtension T)
  | Object (d : ObjectTypeExtension T)
  | Interface (d : InterfaceTypeExtension T)
  | Union (d : UnionTypeExtension T)
  | Enum (d : EnumTypeExtension T)
  | InputObject (d : InputObjectTypeExtension T)

/-- `Definition` from src/schema/ast.rs. -/
inductive Definition (T : Type) where
  | SchemaDefinition (d : SchemaDefinition T)
  | SchemaExtension (d : SchemaExtension T)
  | TypeDefinition (d : TypeDefinition T)
  | TypeExtension (d : TypeExtension T)
  | DirectiveDefinition (d : DirectiveDefinition T)

/-- `Document` from src/schema/ast.rs (the phantom source lifetime of
`Document<'a, T>` is erased). -/
structure Document (T : Type) where
  definitions : List (Definition T)

/-- `Document::into_static` from src/schema/ast.rs: implemented for the
owned instantiation `T = String` as a `transmute` from
`Document<'a, String>` to `Document<'static, String>`.  Both types erase
to the same Lean type because the lifetime lives only in `PhantomData`,
and `transmute` between them is the identity on the representation, so
the embedding rebuilds the document from its (unchanged) definitions. -/
def Document.into_static (d : Document String) : Document String :=
  ⟨d.definitions⟩

theorem from_str_as_str (l : DirectiveLocation) :
    DirectiveLocation.from_str l.as_str = .ok l := by
  cases l <;> rfl

/-- C3: the claim counts 18 locations (7 query, 11 schema); the code's
enum has 19 variants, of which 7 satisfy `is_query` and 12 satisfy
`is_schema` (`VariableDefinition` sits in the type_system group), so the
cardinalities refute the counts 18 and 11. -/
theorem C3_counterexample :
    Fintype.card DirectiveLocation = 19 ∧
    Fintype.card DirectiveLocation ≠ 18 ∧
    (Finset.univ.filter
      (fun l => DirectiveLocation.is_schema l = true)).card = 12 ∧
    (Finset.univ.filter
      (fun l => DirectiveLocation.is_schema l = true)).card ≠ 11 := by
  refine ⟨by decide, by decide, by decide, by decide⟩

/-- C3 (amended): `DirectiveLocation` is a closed enumeration of exactly
19 names, of which exactly 7 satisfy `is_query` (the executable
locations) and exactly 12 satisfy `is_schema` (the type-system
locations). -/
theorem C3_directive_location_counts :
    Fintype.card DirectiveLocation = 19 ∧
    (Finset.univ.filter
      (fun l => DirectiveLocation.is_query l = true)).card = 7 ∧
    (Finset.univ.filter
      (fun l => DirectiveLocation.is_schema l = true)).card = 12 := by
  refine ⟨by decide, by decide, by decide⟩

/-- C4: for every location `l`, `from_str (as_str l) = Ok l`, and
`as_str` is injective, so the variant-to-string mapping is a bijection
onto the set of location names. -/
theorem C4_as_str_bijection (l : DirectiveLocation) :
    DirectiveLocation.from_str l.as_str = .ok l ∧
    ∀ l2 : DirectiveLocation, l.as_str = l2.as_str → l = l2 := by
  refine ⟨from_str_as_str l, ?_⟩
  intro l2 h
  have h1 := from_str_as_str l
  have h2 := from_str_as_str l2
  rw [h, h2] at h1
  exact (Except.ok.injEq _ _).mp h1.symm

theorem C4_witness :
    DirectiveLocation.from_str (DirectiveLocation.Query.as_str) =
      .ok DirectiveLocation.Query ∧
    DirectiveLocation.Query = DirectiveLocation.Query :=
  ⟨(C4_as_str_bijection DirectiveLocation.Query).1,
   (C4_as_str_bijection DirectiveLocation.Query).2
     DirectiveLocation.Query rfl⟩

/-- C5: `from_str s` fails with `InvalidDirectiveLocation` exactly when
`s` is not (case-sensitively) the `as_str` name of any location. -/
theorem C5_from_str_error_iff (s : String) :
    DirectiveLocation.from_str s = .error .mk ↔
      ∀ l : DirectiveLocation, l.as_str ≠ s := by
  constructor
  · intro he l hl
    have h1 := from_str_as_str l
    rw [hl, he] at h1
    exact Except.noConfusion h1
  · intro h
    simp only [DirectiveLocation.from_str]
    rw [if_neg fun e => h .Query e.symm,
        if_neg fun e => h .Mutation e.symm,
        if_neg fun e => h .Subscription e.symm,
        if_neg fun e => h .Field e.symm,
        if_neg fun e => h .FragmentDefinition e.symm,
        if_neg fun e => h .FragmentSpread e.symm,
        if_neg fun e => h .InlineFragment e.symm,
        if_neg fun e => h .Schema e.symm,
        if_neg fun e => h .Scalar e.symm,
        if_neg fun e => h .Object e.symm,
        if_neg fun e => h .FieldDefinition e.symm,
        if_neg fun e => h .ArgumentDefinition e.symm,
        if_neg fun e => h .Interface e.symm,
        if_neg fun e => h .Union e.symm,
        if_neg fun e => h .Enum e.symm,
        if_neg fun e => h .EnumValue e.symm,
        if_neg fun e => h .InputObject e.symm,
        if_neg fun e => h .InputFieldDefinition e.symm,
        if_neg fun e => h .VariableDefinition e.symm]

/-- The lowercase spelling "query" is rejected (instance of C5). -/
theorem C5_witness :
    DirectiveLocation.from_str "query" = .error .mk :=
  (C5_from_str_error_iff "query").mpr (by intro l; cases l <;> decide)

/-- C6: `is_schema` is the boolean negation of `is_query`, so every
location is classified as exactly one of query or schema. -/
theorem C6_partition :
    ∀ l : DirectiveLocation,
      l.is_schema = ! l.is_query ∧
      (l.is_query = true ∨ l.is_schema = true) ∧
      ¬(l.is_query = true ∧ l.is_schema = true) := by
  decide

/-- C1: the claim says the regular string rule strips both `"` delimiters
and processes escapes; on the token `"ab"` the code returns `ab"` — the
closing delimiter survives (the slice `1..=len-1` is inclusive) and no
escape processing happens — which differs from the spec-described value
`ab`. -/
theorem C1_counterexample :
    Helpers._string.parse
        [⟨Kind.StringValue, ['"', 'a', 'b', '"'], Pos.default⟩] =
      some (['a', 'b', '"'], []) ∧
    Helpers._string.parse
        [⟨Kind.StringValue, ['"', 'a', 'b', '"'], Pos.default⟩] ≠
      some (spec_string_contents ['"', 'a', 'b', '"'], []) := by
  refine ⟨by decide, by decide⟩

/-- C1 (amended): on a `StringValue` token whose raw value is
`"` `contents` `"`, the rule returns `contents ++ ['"']` — only the
opening delimiter is stripped, the closing `"` is retained, and the
contents are copied verbatim with no escape processing. -/
theorem C1_regular_string_rule (t : Token) (ts : List Token) (c : List Char)
    (hk : t.kind = Kind.StringValue) (hv : t.value = '"' :: (c ++ ['"'])) :
    Helpers._string.parse (t :: ts) = some (c ++ ['"'], ts) := by
  obtain ⟨k, v, p⟩ := t
  simp only at hk hv
  subst hk
  subst hv
  simp [Helpers.StringMatch.parse, Helpers._string, Helpers.satisfy,
    sliceIncl]

theorem C1_witness :
    Helpers._string.parse
        [⟨Kind.StringValue, ['"', 'a', 'b', '"'], Pos.default⟩] =
      some (['a', 'b', '"'], []) :=
  C1_regular_string_rule _ [] ['a', 'b'] rfl rfl

/-- C2: the claim says the block string rule strips both `"""` delimiters
and applies block-string normalization; on the token `"""ab"""` the code
returns `ab"` — the slice `3..=len-3` keeps one quote of the closing
delimiter, and no normalization is applied — which differs from the
spec-described value `ab`. -/
theorem C2_counterexample :
    Helpers._blockstring.parse
        [⟨Kind.BlockString,
          ['"', '"', '"', 'a', 'b', '"', '"', '"'], Pos.default⟩] =
      some (['a', 'b', '"'], []) ∧
    Helpers._blockstring.parse
        [⟨Kind.BlockString,
          ['"', '"', '"', 'a', 'b', '"', '"', '"'], Pos.default⟩] ≠
      some (spec_block_contents ['"', '"', '"', 'a', 'b', '"', '"', '"'],
        []) := by
  refine ⟨by decide, by decide⟩

/-- C2 (amended): on a `BlockString` token whose raw value is
`"""` `contents` `"""`, the rule returns `contents ++ ['"']` — the
opening `"""` and two of the three closing quotes are stripped, one `"`
of the closing delimiter is retained, and no block-string normalization
is applied. -/
theorem C2_block_string_rule (t : Token) (ts : List Token) (c : List Char)
    (hk : t.kind = Kind.BlockString)
    (hv : t.value = '"' :: '"' :: '"' :: (c ++ ['"', '"', '"'])) :
    Helpers._blockstring.parse (t :: ts) = some (c ++ ['"'], ts) := by
  obtain ⟨k, v, p⟩ := t
  simp only at hk hv
  subst hk
  subst hv
  simp [Helpers.StringMatch.parse, Helpers._blockstring, Helpers.satisfy,
    sliceIncl, List.take_append_eq_append_take]

theorem C2_witness :
    Helpers._blockstring.parse
        [⟨Kind.BlockString,
          ['"', '"', '"', 'a', 'b', '"', '"', '"'], Pos.default⟩] =
      some (['a', 'b', '"'], []) :=
  C2_block_string_rule _ [] ['a', 'b'] rfl rfl

/-- C8: `kind(k)` accepts a token iff its kind is `k` (whatever its
value), `punct(v)` iff the kind is `Punctuator` and the value is `v`,
`ident(v)` iff the kind is `Name` and the value is `v`; each returns the
accepted token unchanged together with the rest of the stream. -/
theorem C8_token_value_matchers (k : Kind) (v : List Char) (t : Token)
    (ts : List Token) :
    ((Helpers.kind k).parse (t :: ts) = some (t, ts) ↔ t.kind = k) ∧
    ((Helpers.punct v).parse (t :: ts) = some (t, ts) ↔
      t.kind = Kind.Punctuator ∧ t.value = v) ∧
    ((Helpers.ident v).parse (t :: ts) = some (t, ts) ↔
      t.kind = Kind.Name ∧ t.value = v) ∧
    (∀ r, (Helpers.kind k).parse (t :: ts) = some r → r = (t, ts)) ∧
    (∀ r, (Helpers.punct v).parse (t :: ts) = some r → r = (t, ts)) ∧
    (∀ r, (Helpers.ident v).parse (t :: ts) = some r → r = (t, ts)) := by
  by_cases h1 : t.kind = k <;> by_cases h2 : t.kind = Kind.Punctuator <;>
    by_cases h3 : t.kind = Kind.Name <;> by_cases h4 : t.value = v <;>
    simp_all [Helpers.TokenMatch.parse, Helpers.Value.parse, Helpers.kind,
      Helpers.punct, Helpers.ident, Helpers.satisfy, eq_comm]

theorem C8_witness :
    (Helpers.ident ['o', 'n']).parse
        [⟨Kind.Name, ['o', 'n'], Pos.default⟩] =
      some (⟨Kind.Name, ['o', 'n'], Pos.default⟩, []) :=
  (C8_token_value_matchers Kind.Name ['o', 'n']
      ⟨Kind.Name, ['o', 'n'], Pos.default⟩ []).2.2.1.mpr ⟨rfl, rfl⟩

/-- C9: the `name()` parser accepts every token of kind `Name` — the
token's value is unconstrained, so the keyword spellings `true`,
`false`, `null`, `on` are accepted too — and returns `S::from` of the
token's value (the identity for the owned instantiation). -/
theorem C9_name_match_accepts_keywords (t : Token) (ts : List Token)
    (h : t.kind = Kind.Name) :
    Helpers.name.parse (t :: ts) = some (t.value, ts) := by
  simp [Helpers.NameMatch.parse, Helpers.name, Helpers.satisfy, h]

theorem C9_witness :
    Helpers.name.parse [⟨Kind.Name, ['t', 'r', 'u', 'e'], Pos.default⟩] =
      some (['t', 'r', 'u', 'e'], []) :=
  C9_name_match_accepts_keywords ⟨Kind.Name, ['t', 'r', 'u', 'e'],
    Pos.default⟩ [] rfl

/-- C7: `into_static` on an owned schema document only rebinds the
phantom source lifetime: the resulting document, and in particular its
list of definitions, equals the input's. -/
theorem C7_into_static_preserves (d : Document String) :
    d.into_static = d ∧ d.into_static.definitions = d.definitions :=
  ⟨rfl, rfl⟩

/-- C10: every `new(name)` constructor in the schema AST yields the node
with `position = Pos::default()`, `description = None` (when present),
all list-valued fields empty, the given name, and — for
`DirectiveDefinition::new` — `repeatable = false`. -/
theorem C10_new_constructors (T : Type) (n : T) :
    ScalarType.new n = (⟨Pos.default, none, n, []⟩ : ScalarType T) ∧
    ScalarTypeExtension.new n =
      (⟨Pos.default, n, []⟩ : ScalarTypeExtension T) ∧
    ObjectType.new n =
      (⟨Pos.default, none, n, [], [], []⟩ : ObjectType T) ∧
    ObjectTypeExtension.new n =
      (⟨Pos.default, n, [], [], []⟩ : ObjectTypeExtension T) ∧
    InterfaceType.new n =
      (⟨Pos.default, none, n, [], [], []⟩ : InterfaceType T) ∧
    InterfaceTypeExtension.new n =
      (⟨Pos.default, n, [], [], []⟩ : InterfaceTypeExtension T) ∧
    UnionType.new n = (⟨Pos.default, none, n, [], []⟩ : UnionType T) ∧
    UnionTypeExtension.new n =
      (⟨Pos.default, n, [], []⟩ : UnionTypeExtension T) ∧
    EnumType.new n = (⟨Pos.default, none, n, [], []⟩ : EnumType T) ∧
    EnumValue.new n = (⟨Pos.default, none, n, []⟩ : EnumValue T) ∧
    EnumTypeExtension.new n =
      (⟨Pos.default, n, [], []⟩ : EnumTypeExtension T) ∧
    InputObjectType.new n =
      (⟨Pos.default, none, n, [], []⟩ : InputObjectType T) ∧
    InputObjectTypeExtension.new n =
      (⟨Pos.default, n, [], []⟩ : InputObjectTypeExtension T) ∧
    DirectiveDefinition.new n =
      (⟨Pos.default, none, n, [], false, []⟩ : DirectiveDefinition T) :=
  ⟨rfl, rfl, rfl, rfl, rfl, rfl, rfl, rfl, rfl, rfl, rfl, rfl, rfl, rfl⟩

end GraphqlParser
